import Mathlib

/-!
Verification of the discrete-time population simulation from
`src/chapters/chap06.ipynb` (ModSimPy, chapter 6).

The notebook defines a parameter bundle (`System`), a result series
(`TimeSeries`, an insertion-ordered mapping from integer year to numeric
value), three simulation loops (`run_simulation1`, `run_simulation2`,
`run_simulation`) and two growth functions (`growth_func1`,
`growth_func2`).  Indices are modelled as `ℤ`, values as `ℚ` (exact
arithmetic).  The result series is modelled as an association list,
insertion-ordered, exactly as a pandas `TimeSeries` behaves for the
operations the notebook uses (`results[t]` read, `results[t] = v` write
that overwrites an existing index and appends a fresh one).

A second embedding (`SystemP`, `run_simulationE`) keeps every bundle
field optional and runs in `Except`, modelling Python attribute access:
reading an absent field raises (AttributeError, the spec's
`MissingParameter`).  The error vocabulary `SimError` carries both error
kinds named by the spec so that claims about `InvalidRange` can be
stated against the code.
-/

/-- A result series: an insertion-ordered list of (index, value) pairs. -/
abbrev TimeSeries := List (ℤ × ℚ)

/-- `results[t]` — look up index `t`.  In every use below the index is
present; the default `0` is never reached in a run. -/
def tsGet : TimeSeries → ℤ → ℚ
  | [], _ => 0
  | (u, v) :: rest, t => if u = t then v else tsGet rest t

/-- Whether index `t` is present in the series. -/
def tsMem : TimeSeries → ℤ → Bool
  | [], _ => false
  | (u, _) :: rest, t => u = t || tsMem rest t

/-- Overwrite the value at the first occurrence of index `t`. -/
def tsUpdate : TimeSeries → ℤ → ℚ → TimeSeries
  | [], _, _ => []
  | (u, w) :: rest, t, v => if u = t then (t, v) :: rest else (u, w) :: tsUpdate rest t v

/-- `results[t] = v` — pandas setitem: overwrite if the index exists,
append a new entry otherwise. -/
def tsSet (res : TimeSeries) (t : ℤ) (v : ℚ) : TimeSeries :=
  if tsMem res t then tsUpdate res t v else res ++ [(t, v)]

/-- The parameter bundle of chapter 6: every field the notebook ever
stores on `system` (cells 14, 29 area, 41). -/
structure System where
  t_0 : ℤ
  t_end : ℤ
  p_0 : ℚ
  annual_growth : ℚ
  birth_rate : ℚ
  death_rate : ℚ
  alpha : ℚ

/-- A growth function: `growth_func(t, pop, system) -> delta`. -/
abbrev GrowthFunc := ℤ → ℚ → System → ℚ

/-- The loop of `run_simulation` (cell 36):
`for t in range(t_0, t_end): results[t+1] = results[t] + growth_func(t, results[t], system)`,
with `n` the number of remaining iterations and `t` the current index. -/
def simLoop (s : System) (g : GrowthFunc) : TimeSeries → ℤ → ℕ → TimeSeries
  | res, _, 0 => res
  | res, t, n + 1 =>
      let growth := g t (tsGet res t) s
      simLoop s g (tsSet res (t + 1) (tsGet res t + growth)) (t + 1) n

/-- `run_simulation(system, growth_func)` (cell 36).  `range(t_0, t_end)`
has `(t_end - t_0).toNat` elements: empty when `t_end ≤ t_0`. -/
def run_simulation (s : System) (g : GrowthFunc) : TimeSeries :=
  simLoop s g (tsSet [] s.t_0 s.p_0) s.t_0 (s.t_end - s.t_0).toNat

/-- The loop of `run_simulation1` (cell 18):
`results[t+1] = results[t] + system.annual_growth`. -/
def simLoop1 (s : System) : TimeSeries → ℤ → ℕ → TimeSeries
  | res, _, 0 => res
  | res, t, n + 1 =>
      simLoop1 s (tsSet res (t + 1) (tsGet res t + s.annual_growth)) (t + 1) n

/-- `run_simulation1(system)` (cell 18). -/
def run_simulation1 (s : System) : TimeSeries :=
  simLoop1 s (tsSet [] s.t_0 s.p_0) s.t_0 (s.t_end - s.t_0).toNat

/-- The loop of `run_simulation2` (cell 27):
`births = system.birth_rate * results[t]; deaths = system.death_rate * results[t];
results[t+1] = results[t] + births - deaths`. -/
def simLoop2 (s : System) : TimeSeries → ℤ → ℕ → TimeSeries
  | res, _, 0 => res
  | res, t, n + 1 =>
      let births := s.birth_rate * tsGet res t
      let deaths := s.death_rate * tsGet res t
      simLoop2 s (tsSet res (t + 1) (tsGet res t + births - deaths)) (t + 1) n

/-- `run_simulation2(system)` (cell 27). -/
def run_simulation2 (s : System) : TimeSeries :=
  simLoop2 s (tsSet [] s.t_0 s.p_0) s.t_0 (s.t_end - s.t_0).toNat

/-- `growth_func1(t, pop, system)` (cell 34):
`births = system.birth_rate * pop; deaths = system.death_rate * pop; return births - deaths`. -/
def growth_func1 : GrowthFunc := fun _t pop system =>
  let births := system.birth_rate * pop
  let deaths := system.death_rate * pop
  births - deaths

/-- `growth_func2(t, pop, system)` (cell 43): `return system.alpha * pop`. -/
def growth_func2 : GrowthFunc := fun _t pop system =>
  system.alpha * pop

/-- Closed form of the value after `k` steps of `run_simulation`:
`simVal s g 0 = p_0` and each step adds `g (t_0 + k) (current) s`. -/
def simVal (s : System) (g : GrowthFunc) : ℕ → ℚ
  | 0 => s.p_0
  | k + 1 => simVal s g k + g (s.t_0 + k) (simVal s g k) s

/-- The series produced by the first `k` steps: indices `t_0 .. t_0 + k`. -/
def seriesUpTo (s : System) (g : GrowthFunc) : ℕ → TimeSeries
  | 0 => [(s.t_0, s.p_0)]
  | k + 1 => seriesUpTo s g k ++ [(s.t_0 + (k + 1 : ℕ), simVal s g (k + 1))]

/-! ### Association-list lemmas -/

theorem tsMem_append (l l' : TimeSeries) (t : ℤ) :
    tsMem (l ++ l') t = (tsMem l t || tsMem l' t) := by
  induction l with
  | nil => simp [tsMem]
  | cons p rest ih =>
      obtain ⟨u, v⟩ := p
      simp [tsMem, ih, Bool.or_assoc]

theorem tsGet_append_of_not_mem (l l' : TimeSeries) (t : ℤ) (h : tsMem l t = false) :
    tsGet (l ++ l') t = tsGet l' t := by
  induction l with
  | nil => simp
  | cons p rest ih =>
      obtain ⟨u, v⟩ := p
      simp only [tsMem, Bool.or_eq_false_iff, decide_eq_false_iff_not] at h
      simp [tsGet, h.1, ih h.2]

theorem tsGet_append_of_mem (l l' : TimeSeries) (t : ℤ) (h : tsMem l t = true) :
    tsGet (l ++ l') t = tsGet l t := by
  induction l with
  | nil => simp [tsMem] at h
  | cons p rest ih =>
      obtain ⟨u, v⟩ := p
      by_cases hu : u = t
      · simp [tsGet, hu]
      · simp only [tsMem, Bool.or_eq_true, decide_eq_true_eq] at h
        rcases h with h | h
        · exact absurd h hu
        · simp [tsGet, hu, ih h]

theorem tsSet_of_not_mem (l : TimeSeries) (t : ℤ) (v : ℚ) (h : tsMem l t = false) :
    tsSet l t v = l ++ [(t, v)] := by
  simp [tsSet, h]

/-! ### The shape of the series built by the generic loop -/

theorem tsMem_seriesUpTo (s : System) (g : GrowthFunc) (k : ℕ) (t : ℤ) :
    tsMem (seriesUpTo s g k) t = true ↔ s.t_0 ≤ t ∧ t ≤ s.t_0 + k := by
  induction k with
  | zero =>
      simp only [seriesUpTo, tsMem, Bool.or_false, decide_eq_true_eq]
      constructor
      · rintro rfl; omega
      · intro h; omega
  | succ k ih =>
      simp only [seriesUpTo, tsMem_append, Bool.or_eq_true, ih]
      simp only [tsMem, Bool.or_false, decide_eq_true_eq]
      constructor
      · rintro (⟨h1, h2⟩ | rfl) <;> push_cast <;> omega
      · intro ⟨h1, h2⟩
        by_cases hk : t ≤ s.t_0 + k
        · exact Or.inl ⟨h1, hk⟩
        · right; push_cast at h2 ⊢; omega

theorem tsGet_seriesUpTo (s : System) (g : GrowthFunc) (k j : ℕ) (h : j ≤ k) :
    tsGet (seriesUpTo s g k) (s.t_0 + j) = simVal s g j := by
  induction k with
  | zero =>
      interval_cases j
      simp [seriesUpTo, tsGet, simVal]
  | succ k ih =>
      rcases Nat.lt_or_ge j (k + 1) with hj | hj
      · have hmem : tsMem (seriesUpTo s g k) (s.t_0 + j) = true := by
          rw [tsMem_seriesUpTo]
          omega
        rw [seriesUpTo, tsGet_append_of_mem _ _ _ hmem, ih (by omega)]
      · have hj' : j = k + 1 := by omega
        subst hj'
        have hmem : tsMem (seriesUpTo s g k) (s.t_0 + (k + 1 : ℕ)) = false := by
          rw [Bool.eq_false_iff]
          intro hc
          rw [tsMem_seriesUpTo] at hc
          push_cast at hc
          omega
        rw [seriesUpTo, tsGet_append_of_not_mem _ _ _ hmem]
        simp [tsGet]

theorem simLoop_seriesUpTo (s : System) (g : GrowthFunc) :
    ∀ (n k : ℕ), simLoop s g (seriesUpTo s g k) (s.t_0 + (k : ℤ)) n = seriesUpTo s g (k + n) := by
  intro n
  induction n with
  | zero => intro k; rfl
  | succ n ih =>
      intro k
      have hmem : tsMem (seriesUpTo s g k) (s.t_0 + (k : ℤ) + 1) = false := by
        rw [Bool.eq_false_iff]
        intro hc
        rw [tsMem_seriesUpTo] at hc
        omega
      have hget : tsGet (seriesUpTo s g k) (s.t_0 + (k : ℤ)) = simVal s g k :=
        tsGet_seriesUpTo s g k k le_rfl
      have hstep :
          tsSet (seriesUpTo s g k) (s.t_0 + (k : ℤ) + 1)
              (tsGet (seriesUpTo s g k) (s.t_0 + (k : ℤ)) +
                g (s.t_0 + (k : ℤ)) (tsGet (seriesUpTo s g k) (s.t_0 + (k : ℤ))) s) =
            seriesUpTo s g (k + 1) := by
        rw [tsSet_of_not_mem _ _ _ hmem, hget]
        have hidx : s.t_0 + (k : ℤ) + 1 = s.t_0 + ((k + 1 : ℕ) : ℤ) := by push_cast; ring
        rw [hidx]
        rfl
      have harg : s.t_0 + (k : ℤ) + 1 = s.t_0 + ((k + 1 : ℕ) : ℤ) := by push_cast; ring
      calc simLoop s g (seriesUpTo s g k) (s.t_0 + (k : ℤ)) (n + 1)
          = simLoop s g (seriesUpTo s g (k + 1)) (s.t_0 + ((k + 1 : ℕ) : ℤ)) n := by
            rw [simLoop, hstep, harg]
        _ = seriesUpTo s g ((k + 1) + n) := ih (k + 1)
        _ = seriesUpTo s g (k + (n + 1)) := by ring_nf

theorem run_simulation_eq (s : System) (g : GrowthFunc) :
    run_simulation s g = seriesUpTo s g (s.t_end - s.t_0).toNat := by
  have h0 : tsSet [] s.t_0 s.p_0 = seriesUpTo s g 0 := by
    simp [tsSet, tsMem, seriesUpTo]
  rw [run_simulation, h0]
  have h := simLoop_seriesUpTo s g (s.t_end - s.t_0).toNat 0
  simpa using h

theorem seriesUpTo_length (s : System) (g : GrowthFunc) (k : ℕ) :
    (seriesUpTo s g k).length = k + 1 := by
  induction k with
  | zero => rfl
  | succ k ih => simp [seriesUpTo, ih]

theorem seriesUpTo_keys (s : System) (g : GrowthFunc) (k : ℕ) :
    (seriesUpTo s g k).map Prod.fst =
      (List.range (k + 1)).map (fun j : ℕ => s.t_0 + (j : ℤ)) := by
  induction k with
  | zero => simp [seriesUpTo, List.range_succ]
  | succ k ih =>
      rw [seriesUpTo, List.range_succ, List.map_append, List.map_append, ih]
      simp

/-! ### Relating the specialised loops to the generic one -/

theorem simLoop1_eq_simLoop (s : System) :
    ∀ (n : ℕ) (res : TimeSeries) (t : ℤ),
      simLoop1 s res t n = simLoop s (fun _ _ sy => sy.annual_growth) res t n := by
  intro n
  induction n with
  | zero => intro res t; rfl
  | succ n ih => intro res t; rw [simLoop1, simLoop, ih]

theorem run_simulation1_eq (s : System) :
    run_simulation1 s = run_simulation s (fun _ _ sy => sy.annual_growth) := by
  rw [run_simulation1, run_simulation, simLoop1_eq_simLoop]

theorem simLoop2_eq_simLoop (s : System) :
    ∀ (n : ℕ) (res : TimeSeries) (t : ℤ),
      simLoop2 s res t n = simLoop s growth_func1 res t n := by
  intro n
  induction n with
  | zero => intro res t; rfl
  | succ n ih =>
      intro res t
      rw [simLoop2, simLoop, ih]
      have hval : tsGet res t + s.birth_rate * tsGet res t - s.death_rate * tsGet res t =
          tsGet res t + growth_func1 t (tsGet res t) s := by
        show _ = tsGet res t + (s.birth_rate * tsGet res t - s.death_rate * tsGet res t)
        ring
      rw [hval]

theorem run_simulation2_eq (s : System) :
    run_simulation2 s = run_simulation s growth_func1 := by
  rw [run_simulation2, run_simulation, simLoop2_eq_simLoop]

theorem simLoop_congr (s : System) (g1 g2 : GrowthFunc)
    (h : ∀ t v, g1 t v s = g2 t v s) :
    ∀ (n : ℕ) (res : TimeSeries) (t : ℤ), simLoop s g1 res t n = simLoop s g2 res t n := by
  intro n
  induction n with
  | zero => intro res t; rfl
  | succ n ih =>
      intro res t
      rw [simLoop, simLoop, h t (tsGet res t), ih]

/-! ### Closed forms of the step values -/

theorem simVal_const_growth (s : System) (k : ℕ) :
    simVal s (fun _ _ sy => sy.annual_growth) k = s.p_0 + k * s.annual_growth := by
  induction k with
  | zero => simp [simVal]
  | succ k ih =>
      rw [simVal, ih]
      push_cast
      ring

theorem simVal_growth_func2 (s : System) (k : ℕ) :
    simVal s growth_func2 k = s.p_0 * (1 + s.alpha) ^ k := by
  induction k with
  | zero => simp [simVal]
  | succ k ih =>
      rw [simVal, ih]
      show s.p_0 * (1 + s.alpha) ^ k + s.alpha * (s.p_0 * (1 + s.alpha) ^ k) = _
      ring

/-! ### Partial-bundle embedding: attribute access can fail

Python raises `AttributeError` when a `System` attribute is absent; the
spec calls this failure `MissingParameter`.  `SimError` also carries the
spec's `InvalidRange` so claims about it can be stated, although the code
never produces it. -/

inductive SimError where
  | invalidRange : SimError
  | missingParameter : SimError
deriving DecidableEq

/-- A bundle in which any field may be absent (`system.attr` missing). -/
structure SystemP where
  t_0 : Option ℤ
  t_end : Option ℤ
  p_0 : Option ℚ
  annual_growth : Option ℚ
  birth_rate : Option ℚ
  death_rate : Option ℚ
  alpha : Option ℚ

/-- Attribute read: an absent field raises (AttributeError, the spec's
`MissingParameter`). -/
def getAttr {α : Type} : Option α → Except SimError α
  | some v => Except.ok v
  | none => Except.error SimError.missingParameter

/-- A growth function over a partial bundle; its own attribute reads may
fail. -/
abbrev GrowthFuncE := ℤ → ℚ → SystemP → Except SimError ℚ

/-- `growth_func1` over a partial bundle: reads `birth_rate`, then
`death_rate`. -/
def growth_func1E : GrowthFuncE := fun _t pop system => do
  let br ← getAttr system.birth_rate
  let births := br * pop
  let dr ← getAttr system.death_rate
  let deaths := dr * pop
  pure (births - deaths)

/-- `growth_func2` over a partial bundle: reads `alpha`. -/
def growth_func2E : GrowthFuncE := fun _t pop system => do
  let a ← getAttr system.alpha
  pure (a * pop)

/-- The loop of `run_simulation` over a partial bundle: each iteration
calls the growth function, which may fail. -/
def simLoopE (s : SystemP) (g : GrowthFuncE) : TimeSeries → ℤ → ℕ → Except SimError TimeSeries
  | res, _, 0 => Except.ok res
  | res, t, n + 1 => do
      let growth ← g t (tsGet res t) s
      simLoopE s g (tsSet res (t + 1) (tsGet res t + growth)) (t + 1) n

/-- `run_simulation` over a partial bundle.  Before the loop the stepper
reads `p_0` and `t_0` (for `results[system.t_0] = system.p_0`) and
`t_end` (for `range(system.t_0, system.t_end)`); `range` is empty when
`t_end ≤ t_0` and the function returns the one-entry series. -/
def run_simulationE (s : SystemP) (g : GrowthFuncE) : Except SimError TimeSeries := do
  let p0 ← getAttr s.p_0
  let t0 ← getAttr s.t_0
  let tend ← getAttr s.t_end
  simLoopE s g (tsSet [] t0 p0) t0 (tend - t0).toNat

/-! ### Bundle-threading embedding: could a run mutate the bundle?

Python passes `system` by reference into the loop and into the growth
function; to state the frame property we let the growth function return
a possibly-updated bundle and thread it through the loop, exactly as the
interpreter would observe it. -/

/-- A growth function that may also update the bundle. -/
abbrev GrowthFuncM := ℤ → ℚ → System → ℚ × System

/-- The loop of `run_simulation`, threading the bundle through each call
of the growth function.  The iteration count is fixed up front because
`range(t_0, t_end)` is evaluated once. -/
def simLoopM (g : GrowthFuncM) : System → TimeSeries → ℤ → ℕ → TimeSeries × System
  | s, res, _, 0 => (res, s)
  | s, res, t, n + 1 =>
      let step := g t (tsGet res t) s
      simLoopM g step.2 (tsSet res (t + 1) (tsGet res t + step.1)) (t + 1) n

/-- `run_simulation` with the bundle threaded; returns the series and the
bundle as it stands after the run. -/
def run_simulationM (s : System) (g : GrowthFuncM) : TimeSeries × System :=
  simLoopM g s (tsSet [] s.t_0 s.p_0) s.t_0 (s.t_end - s.t_0).toNat

/-- The concrete bundle of the spec's worked example:
`{start:1950, end:1953, initial:2.5, alpha:0.02}` (unused fields zero). -/
def exSystem : System :=
  { t_0 := 1950, t_end := 1953, p_0 := 2.5, annual_growth := 0,
    birth_rate := 0, death_rate := 0, alpha := 0.02 }

/-! ### Except-level helper lemmas -/

theorem exceptBind_ok {α β : Type} (a : α) (f : α → Except SimError β) :
    (Except.ok a >>= f) = f a := rfl

theorem exceptBind_error {α β : Type} (e : SimError) (f : α → Except SimError β) :
    ((Except.error e : Except SimError α) >>= f) = Except.error e := rfl

theorem growth_func1E_missing (s : SystemP)
    (h : s.birth_rate = none ∨ s.death_rate = none) (t : ℤ) (v : ℚ) :
    growth_func1E t v s = Except.error SimError.missingParameter := by
  rcases h with h | h
  · simp [growth_func1E, h, getAttr, exceptBind_error, exceptBind_ok]
  · cases hb : s.birth_rate <;>
      simp [growth_func1E, h, hb, getAttr, exceptBind_error, exceptBind_ok]

theorem simLoopE_ne_invalidRange (s : SystemP) (g : GrowthFuncE)
    (h : ∀ t v, g t v s ≠ Except.error SimError.invalidRange) :
    ∀ (n : ℕ) (res : TimeSeries) (t : ℤ),
      simLoopE s g res t n ≠ Except.error SimError.invalidRange := by
  intro n
  induction n with
  | zero => intro res t hc; exact Except.noConfusion hc
  | succ n ih =>
      intro res t
      rw [simLoopE]
      cases hg : g t (tsGet res t) s with
      | ok v => simpa [hg, exceptBind_ok] using ih _ _
      | error e =>
          cases e with
          | invalidRange => exact absurd hg (h t (tsGet res t))
          | missingParameter => simp [hg, exceptBind_error]

/-! ## Claim theorems -/

/-- C1: for every bundle with `t_end ≥ t_0` and every growth function
`g`, `run_simulation` returns a series `r` with `r[t_0] = p_0` and, for
each index `i` from `t_0` to `t_end - 1` inclusive,
`r[i+1] = r[i] + g(i, r[i], bundle)`. -/
theorem run_simulation_recurrence (s : System) (g : GrowthFunc) (h : s.t_0 ≤ s.t_end) :
    tsGet (run_simulation s g) s.t_0 = s.p_0 ∧
      ∀ i : ℤ, s.t_0 ≤ i → i < s.t_end →
        tsGet (run_simulation s g) (i + 1) =
          tsGet (run_simulation s g) i + g i (tsGet (run_simulation s g) i) s := by
  constructor
  · have h0 := tsGet_seriesUpTo s g (s.t_end - s.t_0).toNat 0 (Nat.zero_le _)
    rw [run_simulation_eq]
    simpa [simVal] using h0
  · intro i h1 h2
    rw [run_simulation_eq]
    have hk : ((i - s.t_0).toNat : ℤ) = i - s.t_0 := Int.toNat_of_nonneg (by omega)
    have hi : s.t_0 + ((i - s.t_0).toNat : ℤ) = i := by omega
    have e1 := tsGet_seriesUpTo s g (s.t_end - s.t_0).toNat (i - s.t_0).toNat (by omega)
    rw [hi] at e1
    have e2 := tsGet_seriesUpTo s g (s.t_end - s.t_0).toNat ((i - s.t_0).toNat + 1) (by omega)
    have hi1 : s.t_0 + (((i - s.t_0).toNat + 1 : ℕ) : ℤ) = i + 1 := by push_cast; omega
    rw [hi1] at e2
    rw [e1, e2]
    show simVal s g (i - s.t_0).toNat +
        g (s.t_0 + ((i - s.t_0).toNat : ℤ)) (simVal s g (i - s.t_0).toNat) s = _
    rw [hi]

/-- C1 witness: the recurrence instantiated at the example bundle with
the proportional growth function, at index 1950. -/
theorem run_simulation_recurrence_witness :
    tsGet (run_simulation exSystem growth_func2) exSystem.t_0 = exSystem.p_0 ∧
      tsGet (run_simulation exSystem growth_func2) (1950 + 1) =
        tsGet (run_simulation exSystem growth_func2) 1950 +
          growth_func2 1950 (tsGet (run_simulation exSystem growth_func2) 1950) exSystem := by
  have h := run_simulation_recurrence exSystem growth_func2 (by decide)
  exact ⟨h.1, h.2 1950 (by decide) (by decide)⟩

/-- C2: for every bundle with `t_end ≥ t_0` and every growth function,
the result has exactly `t_end - t_0 + 1` entries, its indices are the
consecutive integers `t_0, t_0 + 1, …, t_end`, the value at `t_0` is
`p_0`, and when `t_0 = t_end` the result is the one-entry series
`[(t_0, p_0)]`. -/
theorem run_simulation_series_shape (s : System) (g : GrowthFunc) (h : s.t_0 ≤ s.t_end) :
    ((run_simulation s g).length : ℤ) = s.t_end - s.t_0 + 1 ∧
    (run_simulation s g).map Prod.fst =
      (List.range ((s.t_end - s.t_0).toNat + 1)).map (fun k : ℕ => s.t_0 + (k : ℤ)) ∧
    tsGet (run_simulation s g) s.t_0 = s.p_0 ∧
    (s.t_0 = s.t_end → run_simulation s g = [(s.t_0, s.p_0)]) := by
  refine ⟨?_, ?_, ?_, ?_⟩
  · rw [run_simulation_eq, seriesUpTo_length]
    push_cast
    omega
  · rw [run_simulation_eq, seriesUpTo_keys]
  · have h0 := tsGet_seriesUpTo s g (s.t_end - s.t_0).toNat 0 (Nat.zero_le _)
    rw [run_simulation_eq]
    simpa [simVal] using h0
  · intro heq
    rw [run_simulation_eq]
    have hn : (s.t_end - s.t_0).toNat = 0 := by omega
    rw [hn]
    rfl

/-- C2 witness: the shape facts at the example bundle, including the
one-entry boundary case on a bundle with `t_0 = t_end`. -/
theorem run_simulation_series_shape_witness :
    ((run_simulation exSystem growth_func2).length : ℤ) =
        exSystem.t_end - exSystem.t_0 + 1 ∧
      run_simulation { exSystem with t_end := 1950 } growth_func2 =
        [({ exSystem with t_end := 1950 }.t_0, { exSystem with t_end := 1950 }.p_0)] := by
  refine ⟨(run_simulation_series_shape exSystem growth_func2 (by decide)).1, ?_⟩
  exact (run_simulation_series_shape { exSystem with t_end := 1950 } growth_func2
    (by decide)).2.2.2 (by decide)

/-- C3 counterexample: on the bundle `{t_0: 5, t_end: 3, p_0: 1}` (end
before start) `run_simulation` raises no `InvalidRange` error — the
Python loop `for t in range(t_0, t_end)` is simply empty — and the call
returns the one-entry series `{5: 1}`. -/
theorem run_simulation_reversed_range_counterexample :
    run_simulationE ⟨some 5, some 3, some 1, none, none, none, none⟩ growth_func2E =
        Except.ok [((5 : ℤ), (1 : ℚ))] ∧
      run_simulationE ⟨some 5, some 3, some 1, none, none, none, none⟩ growth_func2E ≠
        Except.error SimError.invalidRange := by
  refine ⟨rfl, ?_⟩
  show Except.ok [((5 : ℤ), (1 : ℚ))] ≠ Except.error SimError.invalidRange
  exact fun hc => Except.noConfusion hc

/-- C3 amended: for every bundle whose end index precedes its start
index, `run_simulation` does not fail; `range(t_0, t_end)` is empty, so
the call returns the one-entry series `{t_0: p_0}` whatever the growth
function is. -/
theorem run_simulationE_reversed_range (s : SystemP) (t0 tend : ℤ) (p0 : ℚ)
    (g : GrowthFuncE) (h0 : s.t_0 = some t0) (he : s.t_end = some tend)
    (hp : s.p_0 = some p0) (hlt : tend < t0) :
    run_simulationE s g = Except.ok [(t0, p0)] := by
  have hn : (tend - t0).toNat = 0 := by omega
  rw [run_simulationE, h0, he, hp]
  show (Except.ok p0 >>= fun pv => Except.ok t0 >>= fun tv =>
      Except.ok tend >>= fun ev => simLoopE s g (tsSet [] tv pv) tv (ev - tv).toNat) = _
  rw [exceptBind_ok, exceptBind_ok, exceptBind_ok, hn]
  rfl

/-- C3 amended witness: the amended statement at the concrete reversed
bundle `{t_0: 5, t_end: 3, p_0: 1}`. -/
theorem run_simulationE_reversed_range_witness :
    run_simulationE ⟨some 5, some 3, some 1, none, none, none, none⟩ growth_func2E =
      Except.ok [((5 : ℤ), (1 : ℚ))] :=
  run_simulationE_reversed_range ⟨some 5, some 3, some 1, none, none, none, none⟩
    5 3 1 growth_func2E rfl rfl rfl (by decide)

/-- C4: with the proportional growth function `growth_func2`
(`alpha * pop`), the series satisfies
`series[t_0 + k] = p_0 * (1 + alpha)^k`; at the spec's example bundle
`{t_0: 1950, t_end: 1953, p_0: 2.5, alpha: 0.02}` the full series is
`{1950: 2.5, 1951: 2.55, 1952: 2.601, 1953: 2.65302}`. -/
theorem run_simulation_growth_func2_closed_form (s : System) (_h : s.t_0 ≤ s.t_end) :
    (∀ k : ℕ, k ≤ (s.t_end - s.t_0).toNat →
        tsGet (run_simulation s growth_func2) (s.t_0 + (k : ℤ)) =
          s.p_0 * (1 + s.alpha) ^ k) ∧
      run_simulation exSystem growth_func2 =
        [(1950, 2.5), (1951, 2.55), (1952, 2.601), (1953, 2.65302)] := by
  constructor
  · intro k hk
    rw [run_simulation_eq, tsGet_seriesUpTo s growth_func2 _ k hk, simVal_growth_func2]
  · norm_num [run_simulation, simLoop, tsSet, tsMem, tsUpdate, tsGet, exSystem,
      growth_func2]

/-- C4 witness: the closed form at the example bundle for `k = 3`
(`2.5 * 1.02³`). -/
theorem run_simulation_growth_func2_closed_form_witness :
    tsGet (run_simulation exSystem growth_func2) (exSystem.t_0 + ((3 : ℕ) : ℤ)) =
      exSystem.p_0 * (1 + exSystem.alpha) ^ 3 :=
  (run_simulation_growth_func2_closed_form exSystem (by decide)).1 3 (by decide)

/-- C5: `run_simulation1` — the constant-growth loop, equivalently
`run_simulation` with the growth function that returns
`system.annual_growth` — satisfies
`series[t_0 + k] = p_0 + k * annual_growth`. -/
theorem run_simulation1_closed_form (s : System) (_h : s.t_0 ≤ s.t_end) :
    run_simulation1 s = run_simulation s (fun _ _ sy => sy.annual_growth) ∧
      ∀ k : ℕ, k ≤ (s.t_end - s.t_0).toNat →
        tsGet (run_simulation1 s) (s.t_0 + (k : ℤ)) = s.p_0 + k * s.annual_growth := by
  refine ⟨run_simulation1_eq s, ?_⟩
  intro k hk
  rw [run_simulation1_eq, run_simulation_eq,
    tsGet_seriesUpTo s (fun _ _ sy => sy.annual_growth) _ k hk, simVal_const_growth]

/-- C5 witness: the closed form at a constant-growth bundle for `k = 3`. -/
theorem run_simulation1_closed_form_witness :
    tsGet (run_simulation1 { exSystem with annual_growth := 1 })
        ({ exSystem with annual_growth := 1 }.t_0 + ((3 : ℕ) : ℤ)) =
      { exSystem with annual_growth := 1 }.p_0 +
        (3 : ℕ) * { exSystem with annual_growth := 1 }.annual_growth :=
  (run_simulation1_closed_form { exSystem with annual_growth := 1 } (by decide)).2
    3 (by decide)

/-- C6: a bundle missing a field the stepper reads (`t_0`, `t_end`,
`p_0`) makes the run fail with `MissingParameter` for every growth
function; a bundle missing a field the supplied growth function reads
(here `growth_func1`'s `birth_rate` / `death_rate`, read on the first
iteration) likewise fails with `MissingParameter`; and no run ever
fails with `InvalidRange` unless the growth function itself produces it
(the repository's growth functions never do). -/
theorem run_simulationE_missing_parameter (s : SystemP) :
    (∀ g : GrowthFuncE, s.t_0 = none ∨ s.t_end = none ∨ s.p_0 = none →
        run_simulationE s g = Except.error SimError.missingParameter) ∧
    (∀ (t0 tend : ℤ) (p0 : ℚ), s.t_0 = some t0 → s.t_end = some tend →
        s.p_0 = some p0 → t0 < tend → s.birth_rate = none ∨ s.death_rate = none →
        run_simulationE s growth_func1E = Except.error SimError.missingParameter) ∧
    (∀ g : GrowthFuncE, (∀ t v, g t v s ≠ Except.error SimError.invalidRange) →
        run_simulationE s g ≠ Except.error SimError.invalidRange) := by
  refine ⟨?_, ?_, ?_⟩
  · intro g hnone
    cases hp : s.p_0 with
    | none => rw [run_simulationE, hp]; rfl
    | some p0 =>
        cases h0 : s.t_0 with
        | none => rw [run_simulationE, hp, h0]; rfl
        | some t0 =>
            cases he : s.t_end with
            | none => rw [run_simulationE, hp, h0, he]; rfl
            | some tend =>
                rw [hp, h0, he] at hnone
                rcases hnone with hc | hc | hc <;> exact Option.noConfusion hc
  · intro t0 tend p0 h0 he hp hlt hmiss
    obtain ⟨m, hm⟩ : ∃ m, (tend - t0).toNat = m + 1 :=
      ⟨(tend - t0).toNat - 1, by omega⟩
    rw [run_simulationE, hp, h0, he]
    show (Except.ok p0 >>= fun pv => Except.ok t0 >>= fun tv =>
        Except.ok tend >>= fun ev =>
          simLoopE s growth_func1E (tsSet [] tv pv) tv (ev - tv).toNat) = _
    rw [exceptBind_ok, exceptBind_ok, exceptBind_ok, hm, simLoopE,
      growth_func1E_missing s hmiss, exceptBind_error]
  · intro g hg
    cases hp : s.p_0 with
    | none =>
        rw [run_simulationE, hp]
        exact fun hc => SimError.noConfusion (Except.error.inj hc)
    | some p0 =>
        cases h0 : s.t_0 with
        | none =>
            rw [run_simulationE, hp, h0]
            exact fun hc =>
              SimError.noConfusion (Except.error.inj hc)
        | some t0 =>
            cases he : s.t_end with
            | none =>
                rw [run_simulationE, hp, h0, he]
                exact fun hc =>
                  SimError.noConfusion (Except.error.inj hc)
            | some tend =>
                rw [run_simulationE, hp, h0, he]
                show (Except.ok p0 >>= fun pv => Except.ok t0 >>= fun tv =>
                    Except.ok tend >>= fun ev =>
                      simLoopE s g (tsSet [] tv pv) tv (ev - tv).toNat) ≠ _
                rw [exceptBind_ok, exceptBind_ok, exceptBind_ok]
                exact simLoopE_ne_invalidRange s g hg _ _ _

/-- C6 witness: the empty bundle fails with `MissingParameter` under
`growth_func2`; a bundle with the stepper fields but no `birth_rate`
fails with `MissingParameter` under `growth_func1`. -/
theorem run_simulationE_missing_parameter_witness :
    run_simulationE ⟨none, none, none, none, none, none, none⟩ growth_func2E =
        Except.error SimError.missingParameter ∧
      run_simulationE ⟨some 1950, some 1953, some 2, none, none, none, none⟩
          growth_func1E =
        Except.error SimError.missingParameter :=
  ⟨(run_simulationE_missing_parameter ⟨none, none, none, none, none, none, none⟩).1
      growth_func2E (Or.inl rfl),
    (run_simulationE_missing_parameter
        ⟨some 1950, some 1953, some 2, none, none, none, none⟩).2.1
      1950 1953 2 rfl rfl rfl (by decide) (Or.inl rfl)⟩

/-- C7: `run_simulation` is deterministic — two calls on equal bundles
and equal growth functions return series that are equal and agree at
every index; the computation has no hidden state. -/
theorem run_simulation_deterministic (s1 s2 : System) (g1 g2 : GrowthFunc)
    (hs : s1 = s2) (hg : g1 = g2) :
    run_simulation s1 g1 = run_simulation s2 g2 ∧
      ∀ t : ℤ, tsGet (run_simulation s1 g1) t = tsGet (run_simulation s2 g2) t := by
  subst hs
  subst hg
  exact ⟨rfl, fun _ => rfl⟩

/-- C7 witness: determinism at the example bundle. -/
theorem run_simulation_deterministic_witness :
    run_simulation exSystem growth_func2 = run_simulation exSystem growth_func2 :=
  (run_simulation_deterministic exSystem exSystem growth_func2 growth_func2 rfl rfl).1

/-- C8: a run does not mutate the bundle.  With the bundle threaded
through the loop, any growth function that leaves the bundle unchanged
yields a final bundle equal to the initial one (every field keeps its
value), and the series is the one the pure runner computes. -/
theorem run_simulation_preserves_bundle (s : System) (g : GrowthFuncM)
    (h : ∀ (t : ℤ) (v : ℚ) (s' : System), (g t v s').2 = s') :
    (run_simulationM s g).2 = s ∧
      (run_simulationM s g).1 = run_simulation s (fun t v s' => (g t v s').1) := by
  have key : ∀ (n : ℕ) (res : TimeSeries) (t : ℤ),
      simLoopM g s res t n = (simLoop s (fun a b c => (g a b c).1) res t n, s) := by
    intro n
    induction n with
    | zero => intro res t; rfl
    | succ n ih =>
        intro res t
        rw [simLoopM, simLoop]
        rw [show g t (tsGet res t) s = ((g t (tsGet res t) s).1, s) from
          Prod.ext rfl (h t (tsGet res t) s)]
        exact ih _ _
  have hrun : run_simulationM s g =
      (run_simulation s (fun t v s' => (g t v s').1), s) := by
    rw [run_simulationM, run_simulation, key]
  rw [hrun]
  exact ⟨rfl, rfl⟩

/-- C8 witness: the non-mutating lift of `growth_func2` leaves the
example bundle intact. -/
theorem run_simulation_preserves_bundle_witness :
    (run_simulationM exSystem (fun t v s' => (growth_func2 t v s', s'))).2 =
      exSystem :=
  (run_simulation_preserves_bundle exSystem
      (fun t v s' => (growth_func2 t v s', s')) (fun _ _ _ => rfl)).1

/-- C9: the generic runner specialised with the factored-out update
function coincides with the specialised loop —
`run_simulation(system, growth_func1)` equals `run_simulation2(system)`
as a list and at every index (for any bundle, in particular whenever
`t_end ≥ t_0`). -/
theorem run_simulation_growth_func1_eq_run_simulation2 (s : System) :
    run_simulation s growth_func1 = run_simulation2 s ∧
      ∀ t : ℤ, tsGet (run_simulation s growth_func1) t = tsGet (run_simulation2 s) t := by
  have h := (run_simulation2_eq s).symm
  exact ⟨h, fun t => by rw [h]⟩

/-- C10: when `alpha = birth_rate - death_rate` (cell 41),
`growth_func2` agrees with `growth_func1` pointwise over exact
arithmetic, `run_simulation` returns the same series with either, and
neither growth function depends on its index argument. -/
theorem growth_func2_eq_growth_func1_of_alpha (s : System)
    (h : s.alpha = s.birth_rate - s.death_rate) :
    (∀ (t : ℤ) (pop : ℚ), growth_func2 t pop s = growth_func1 t pop s) ∧
      run_simulation s growth_func2 = run_simulation s growth_func1 ∧
      ∀ (t u : ℤ) (pop : ℚ) (s' : System),
        growth_func1 t pop s' = growth_func1 u pop s' ∧
          growth_func2 t pop s' = growth_func2 u pop s' := by
  have hpt : ∀ (t : ℤ) (pop : ℚ), growth_func2 t pop s = growth_func1 t pop s := by
    intro t pop
    show s.alpha * pop = s.birth_rate * pop - s.death_rate * pop
    rw [h]
    ring
  refine ⟨hpt, ?_, ?_⟩
  · rw [run_simulation, run_simulation,
      simLoop_congr s growth_func2 growth_func1 (fun t v => hpt t v)]
  · intro t u pop s'
    exact ⟨rfl, rfl⟩

/-- C10 witness: pointwise agreement and equal series on a bundle with
`alpha = birth_rate - death_rate` (`0.02 = 0.03 - 0.01`). -/
theorem growth_func2_eq_growth_func1_of_alpha_witness :
    growth_func2 0 2 ⟨1950, 1953, 2, 0, 3/100, 1/100, 2/100⟩ =
        growth_func1 0 2 ⟨1950, 1953, 2, 0, 3/100, 1/100, 2/100⟩ ∧
      run_simulation ⟨1950, 1953, 2, 0, 3/100, 1/100, 2/100⟩ growth_func2 =
        run_simulation ⟨1950, 1953, 2, 0, 3/100, 1/100, 2/100⟩ growth_func1 := by
  have h := growth_func2_eq_growth_func1_of_alpha
    ⟨1950, 1953, 2, 0, 3/100, 1/100, 2/100⟩ (by norm_num)
  exact ⟨h.1 0 2, h.2.1⟩
